import Mathlib

/-!
Verification of the port-killer core (scan, classify, terminate) against a
shallow embedding in Lean 4.

The repository ships only the C FFI header `portkiller.h`, which fixes the
exported data shapes (`ProcessType` codes 0–4, `CPortInfo` with a `uint16_t`
port, return conventions `1`/`0`) and documents the timing of the kill paths
(SIGTERM, 500 ms wait, SIGKILL for a single PID; SIGTERM to each, 300 ms
batched wait, SIGKILL to survivors for a whole port).  The Rust implementation
behind the header is not part of the sources, so the core behaviour below is
modelled from the specification, while the types and constants come from the
header.
-/

namespace PortKiller

/-- Classification enum, from the header: `ProcessTypeWebServer = 0`,
`ProcessTypeDatabase = 1`, `ProcessTypeDevelopment = 2`, `ProcessTypeSystem = 3`,
`ProcessTypeOther = 4`. -/
inductive ProcessType where
  | webServer
  | database
  | development
  | system
  | other
deriving DecidableEq, Repr

/-- Numeric code of a `ProcessType`, exactly the header's enum values. -/
def ProcessType.toCode : ProcessType → Nat
  | .webServer => 0
  | .database => 1
  | .development => 2
  | .system => 3
  | .other => 4

/-- Modelled from the spec: per-PID termination outcome
`Killed | NotFound | PermissionDenied | StillAlive` (§3, §4.3); the Rust
implementation of the terminator is missing from the sources. -/
inductive Outcome where
  | killed
  | notFound
  | permissionDenied
  | stillAlive
deriving DecidableEq, Repr

/-- Modelled from the spec: `TargetNotFound` and a confirmed kill are the
benign, success-equivalent outcomes for termination intents (§7). -/
def Outcome.isBenign : Outcome → Bool
  | .killed => true
  | .notFound => true
  | _ => false

/-- Modelled from the spec: one raw tuple produced by the Platform Probe
(§4.1): local port, PID, local address, and best-effort name/command strings
(`none` when the cheap query did not yield them).  The port is 16-bit, as in
the header's `uint16_t port`. -/
structure RawSocketRecord where
  port : Fin 65536
  pid : Nat
  address : String
  name : Option String
  cmdline : Option String
deriving DecidableEq, Repr

/-- Canonical catalog entry (§3); field names and types follow the header's
`CPortInfo`, with the classification kept as the enum. -/
structure PortInfo where
  port : Fin 65536
  pid : Nat
  process_name : String
  command : String
  address : String
  process_type : ProcessType
  is_active : Bool
deriving DecidableEq, Repr

/-- Modelled from the spec: total-enumeration failure of the Platform Probe
(§4.1, §7 `ProbeFailure`); the only way a scan fails. -/
inductive ProbeError where
  | unavailable
deriving DecidableEq, Repr

/-- Modelled from the spec: the OS environment a call observes — the socket
table (`none` means the OS query mechanism itself is unavailable), best-effort
PID-to-name/command resolution, liveness, signal permission, and how each
process reacts to the two signals.  The missing Rust core is a client of
exactly these OS facilities. -/
structure OSEnv where
  socketTable : Option (List RawSocketRecord)
  nameOf : Nat → Option String
  cmdOf : Nat → Option String
  alive : Nat → Bool
  canSignal : Nat → Bool
  exitsOnTerm : Nat → Bool
  killConfirm : Nat → Bool

/-- Ordered rule table, web servers first.  Modelled from the spec: known
server binaries → `WebServer` (§4.2); the concrete Rust rule list is missing
from the sources. -/
def webServerRules : List String := ["nginx", "httpd", "apache2", "caddy", "lighttpd"]

/-- Modelled from the spec: known DB engine binaries → `Database` (§4.2). -/
def databaseRules : List String := ["postgres", "mysqld", "redis-server", "mongod"]

/-- Modelled from the spec: known interpreter/build-tool binaries →
`Development` (§4.2). -/
def developmentRules : List String := ["node", "python", "ruby", "java", "deno", "bun"]

/-- Modelled from the spec: known OS-critical binaries → `System` (§4.2). -/
def systemRules : List String := ["launchd", "systemd", "init", "kernel_task"]

/-- Modelled from the spec: whether one ordered rule set matches the
`(process_name, command)` pair (§4.2). -/
def ruleHits (rules : List String) (name command : String) : Bool :=
  rules.any fun r => name == r || command == r

/-- Modelled from the spec: classification as a pure function over
`(process_name, command)`, matching the ordered rule sets most-specific first
(§4.2, §8); anything unmatched is `Other`. -/
def classify (name command : String) : ProcessType :=
  if ruleHits webServerRules name command then .webServer
  else if ruleHits databaseRules name command then .database
  else if ruleHits developmentRules name command then .development
  else if ruleHits systemRules name command then .system
  else .other

/-- Key on which raw records are deduplicated: `(port, pid)` (§4.2). -/
def rkey (r : RawSocketRecord) : Fin 65536 × Nat := (r.port, r.pid)

/-- Whether two raw records represent the same `(port, pid)` binding. -/
def sameKey (s r : RawSocketRecord) : Bool :=
  s.port == r.port && s.pid == r.pid

/-- Modelled from the spec: group raw records by `(port, pid)` to deduplicate
redundant rows (§4.2).  Keeps one representative per key. -/
def dedupByKey : List RawSocketRecord → List RawSocketRecord
  | [] => []
  | r :: rest =>
      if rest.any (fun s => sameKey s r) then dedupByKey rest
      else r :: dedupByKey rest

/-- Modelled from the spec: build one catalog entry from a deduplicated raw
record (§4.2): resolve missing name/command by a best-effort secondary lookup,
degrade resolution failure to the empty string, classify purely from
`(process_name, command)`, and confirm liveness for `is_active`. -/
def buildEntry (os : OSEnv) (r : RawSocketRecord) : PortInfo :=
  let name := (r.name.orElse fun _ => os.nameOf r.pid).getD ""
  let cmd := (r.cmdline.orElse fun _ => os.cmdOf r.pid).getD ""
  { port := r.port
    pid := r.pid
    process_name := name
    command := cmd
    address := r.address
    process_type := classify name cmd
    is_active := os.alive r.pid }

/-- Output order of the catalog: port ascending, then PID ascending (§4.2). -/
def catalogLE (a b : PortInfo) : Prop :=
  a.port.val < b.port.val ∨ (a.port.val = b.port.val ∧ a.pid ≤ b.pid)

instance : DecidableRel catalogLE := fun a b => by
  unfold catalogLE; exact inferInstance

/-- Modelled from the spec: `build_catalog(records)` (§4.2) — deduplicate by
`(port, pid)`, build entries, and emit them grouped by port ascending then PID
ascending. -/
def build_catalog (os : OSEnv) (records : List RawSocketRecord) : List PortInfo :=
  List.insertionSort catalogLE ((dedupByKey records).map (buildEntry os))

/-- Modelled from the spec: a scan (§4.1 + §4.2) — fails with `ProbeError`
exactly when the OS socket table cannot be read at all, and otherwise builds
the full catalog from the raw records. -/
def scan (os : OSEnv) : Except ProbeError (List PortInfo) :=
  match os.socketTable with
  | none => .error .unavailable
  | some records => .ok (build_catalog os records)

/-- Signals used by the terminator: the cooperative one (SIGTERM) and the
forceful one (SIGKILL), per the header's documentation. -/
inductive Signal where
  | term
  | kill
deriving DecidableEq, Repr

/-- Observable actions of a termination call, in order: signal deliveries,
bounded waits (in milliseconds), and liveness re-checks.  The traces make the
ordering and timing obligations of §4.3/§4.4/§5 provable. -/
inductive Event where
  | signal (s : Signal) (pid : Nat)
  | wait (ms : Nat)
  | verify (pid : Nat)
deriving DecidableEq, Repr

/-- Total wait time, in milliseconds, accumulated along a trace. -/
def waitTime : List Event → Nat
  | [] => 0
  | .wait ms :: rest => ms + waitTime rest
  | _ :: rest => waitTime rest

/-- Whether an event is a wait. -/
def Event.isWait : Event → Bool
  | .wait _ => true
  | _ => false

/-- Liveness table after a confirmed kill of `pid`. -/
def OSEnv.markDead (os : OSEnv) (pid : Nat) : OSEnv :=
  { os with alive := fun p => if p = pid then false else os.alive p }

/-- Modelled from the spec: `terminate(pid, Force)` (§4.3) — send the
uncatchable kill once; `NotFound` if the PID no longer exists, `PermissionDenied`
if the caller lacks rights, `Killed` on confirmed delivery, `StillAlive` when
delivery cannot be confirmed.  The Rust terminator is missing from the
sources. -/
def terminateForce (os : OSEnv) (pid : Nat) : Outcome × OSEnv × List Event :=
  if !os.alive pid then (.notFound, os, [.signal .kill pid])
  else if !os.canSignal pid then (.permissionDenied, os, [.signal .kill pid])
  else if os.killConfirm pid then (.killed, os.markDead pid, [.signal .kill pid])
  else (.stillAlive, os, [.signal .kill pid])

/-- Modelled from the spec: `terminate(pid, Graceful)` (§4.3), the state
machine Request → Wait → Verify → (done | Escalate).  Sends SIGTERM, waits the
fixed 500 ms single-PID grace interval (header), re-checks liveness, and only
escalates to the force path when the process is still alive; a process that
exits on its own within the interval yields `Killed` with no force signal. -/
def terminateGraceful (os : OSEnv) (pid : Nat) : Outcome × OSEnv × List Event :=
  if !os.alive pid then (.notFound, os, [.signal .term pid])
  else if !os.canSignal pid then (.permissionDenied, os, [.signal .term pid])
  else
    let request := [Event.signal .term pid, Event.wait 500, Event.verify pid]
    if os.exitsOnTerm pid then (.killed, os.markDead pid, request)
    else if os.killConfirm pid then
      (.killed, os.markDead pid, request ++ [Event.signal .kill pid])
    else (.stillAlive, os, request ++ [Event.signal .kill pid])

/-- Active PIDs listening on `port` in the current snapshot: the catalog
entries matching the port with `is_active = true` (§4.4 step 1); empty when
the scan itself fails. -/
def activePidsOnPort (os : OSEnv) (port : Fin 65536) : List Nat :=
  match scan os with
  | .error _ => []
  | .ok infos => (infos.filter fun i => i.port == port && i.is_active).map (·.pid)

/-- Modelled from the spec: the per-PID outcome of the batched kill (§4.4) —
dead PIDs resolve to `NotFound`, refused signals to `PermissionDenied`,
processes that exit within the shared grace interval or under SIGKILL to
`Killed`, unconfirmable force delivery to `StillAlive`. -/
def batchOutcome (os : OSEnv) (pid : Nat) : Outcome :=
  if !os.alive pid then .notFound
  else if !os.canSignal pid then .permissionDenied
  else if os.exitsOnTerm pid then .killed
  else if os.killConfirm pid then .killed
  else .stillAlive

/-- Modelled from the spec: aggregated result of `kill_port` (§4.4) —
`noAction` when the port has no active listener (a success-shaped no-op),
`done` with per-PID outcomes otherwise, `probeFailure` when the scan itself
fails. -/
inductive KillPortResult where
  | noAction
  | done (outcomes : List (Nat × Outcome))
  | probeFailure
deriving DecidableEq, Repr

/-- Whether an aggregated result is a failure; `noAction` is not (§4.4, §7). -/
def KillPortResult.isFailure : KillPortResult → Bool
  | .probeFailure => true
  | _ => false

/-- Whether at least one PID was confirmed terminated in the aggregate. -/
def KillPortResult.atLeastOneKilled : KillPortResult → Bool
  | .done outcomes => outcomes.any fun po => po.2 == .killed
  | _ => false

/-- Modelled from the spec: `kill_port(port)` (§4.4) and the header's
`portkiller_kill_processes_on_port` steps — find the active PIDs on the port;
if none, take no action; otherwise send SIGTERM to every PID first, wait once
for 300 ms for the whole batch, then send SIGKILL to the PIDs still running,
collecting a per-PID outcome for each. -/
def killAllOnPort (os : OSEnv) (port : Fin 65536) :
    KillPortResult × OSEnv × List Event :=
  match scan os with
  | .error _ => (.probeFailure, os, [])
  | .ok _ =>
      let pids := activePidsOnPort os port
      if pids = [] then (.noAction, os, [])
      else
        let survivors := pids.filter fun p =>
          os.alive p && os.canSignal p && !os.exitsOnTerm p
        let killedPids := pids.filter fun p => batchOutcome os p == .killed
        (.done (pids.map fun p => (p, batchOutcome os p)),
         { os with alive := fun p => os.alive p && !killedPids.contains p },
         pids.map (Event.signal .term) ++ Event.wait 300 ::
           survivors.map (Event.signal .kill))

/-- C-side mirror of `PortInfo`, from the header's `CPortInfo`: the
classification is marshalled to its numeric `uint8_t` code. -/
structure CPortInfo where
  port : Fin 65536
  pid : Nat
  process_name : String
  command : String
  address : String
  process_type : Nat
  is_active : Bool
deriving DecidableEq, Repr

/-- Marshalling of one catalog entry across the FFI boundary. -/
def toCPortInfo (i : PortInfo) : CPortInfo :=
  { port := i.port
    pid := i.pid
    process_name := i.process_name
    command := i.command
    address := i.address
    process_type := i.process_type.toCode
    is_active := i.is_active }

/-- Modelled from the spec and the header: `portkiller_scan_ports` returns
`1` and the marshalled snapshot on success, `0` and no entries on failure. -/
def portkiller_scan_ports (os : OSEnv) : Nat × List CPortInfo :=
  match scan os with
  | .error _ => (0, [])
  | .ok infos => (1, infos.map toCPortInfo)

/-- Modelled from the spec and the header: `portkiller_kill_processes_on_port`
returns `1` if at least one process was killed, `0` otherwise. -/
def portkiller_kill_processes_on_port (os : OSEnv) (port : Fin 65536) : Nat :=
  if (killAllOnPort os port).1.atLeastOneKilled then 1 else 0

/-- Modelled from the spec: the process-wide handle bookkeeping of the FFI
shim (§2 Instance/Session State, header lifecycle functions) — the set of
live instance ids and a fresh-id counter.  The Rust side of
`portkiller_new`/`portkiller_free` is missing from the sources. -/
structure HandleHeap where
  live : List Nat
  nextId : Nat
deriving DecidableEq, Repr

/-- Modelled from the spec and the header: `portkiller_new` — returns a fresh
handle when the OS query subsystem is available, and no handle (`NULL`)
otherwise. -/
def portkiller_new (available : Bool) (h : HandleHeap) : Option Nat × HandleHeap :=
  if available then
    (some h.nextId, { live := h.nextId :: h.live, nextId := h.nextId + 1 })
  else (none, h)

/-- Modelled from the spec and the header: `portkiller_free` — a `NULL`
handle is accepted and ignored; a real handle is released from the live set. -/
def portkiller_free (handle : Option Nat) (h : HandleHeap) : HandleHeap :=
  match handle with
  | none => h
  | some id => { h with live := h.live.filter fun x => x ≠ id }

/-- Key of a catalog entry, mirroring `rkey` on raw records. -/
def pkey (i : PortInfo) : Fin 65536 × Nat := (i.port, i.pid)

/-- Raw records for the spec's shared-port scenario: port 8080 bound by PID
1001 ("node") and PID 1002 ("postgres"). -/
def recsShared : List RawSocketRecord :=
  [{ port := 8080, pid := 1001, address := "127.0.0.1",
     name := some "node", cmdline := some "node server.js" },
   { port := 8080, pid := 1002, address := "127.0.0.1",
     name := some "postgres", cmdline := some "postgres -D data" }]

/-- Concrete OS environment for evaluation: the spec's scenario of port 8080
shared by PID 1001 ("node") and PID 1002 ("postgres"), where signalling 1001
is refused and 1002 dies under SIGKILL. -/
def osShared : OSEnv :=
  { socketTable := some recsShared
    nameOf := fun _ => none
    cmdOf := fun _ => none
    alive := fun p => p == 1001 || p == 1002
    canSignal := fun p => p == 1002
    exitsOnTerm := fun _ => false
    killConfirm := fun _ => true }

/-- Concrete OS environment: one live process (PID 7) that ignores SIGTERM
and dies under SIGKILL. -/
def osIgnores : OSEnv :=
  { socketTable := some []
    nameOf := fun _ => none
    cmdOf := fun _ => none
    alive := fun _ => true
    canSignal := fun _ => true
    exitsOnTerm := fun _ => false
    killConfirm := fun _ => true }

/-- Concrete OS environment: one live process (PID 7) that exits on its own
within the grace interval after SIGTERM. -/
def osCooperates : OSEnv :=
  { socketTable := some []
    nameOf := fun _ => none
    cmdOf := fun _ => none
    alive := fun _ => true
    canSignal := fun _ => true
    exitsOnTerm := fun _ => true
    killConfirm := fun _ => true }

/-- Concrete OS environment: port 9090 shared by PIDs 2001 (exits during the
batched wait) and 2002 (must be force-killed). -/
def osBatch : OSEnv :=
  { socketTable := some
      [{ port := 9090, pid := 2001, address := "0.0.0.0",
         name := some "node", cmdline := some "node a.js" },
       { port := 9090, pid := 2002, address := "0.0.0.0",
         name := some "node", cmdline := some "node b.js" }]
    nameOf := fun _ => none
    cmdOf := fun _ => none
    alive := fun p => p == 2001 || p == 2002
    canSignal := fun _ => true
    exitsOnTerm := fun p => p == 2001
    killConfirm := fun _ => true }

/-- Concrete OS environment: a readable socket table with no listener at
all, and a dead PID 55. -/
def osIdle : OSEnv :=
  { socketTable := some []
    nameOf := fun _ => none
    cmdOf := fun _ => none
    alive := fun _ => false
    canSignal := fun _ => true
    exitsOnTerm := fun _ => false
    killConfirm := fun _ => true }

/-- Raw records of `osUnresolved`: one record (port 4242, PID 77) carrying
no identifying strings. -/
def recsUnresolved : List RawSocketRecord :=
  [{ port := 4242, pid := 77, address := "0.0.0.0",
     name := none, cmdline := none }]

/-- Concrete OS environment: one record (port 4242, PID 77) whose name and
command cannot be resolved at all. -/
def osUnresolved : OSEnv :=
  { socketTable := some recsUnresolved
    nameOf := fun _ => none
    cmdOf := fun _ => none
    alive := fun _ => true
    canSignal := fun _ => true
    exitsOnTerm := fun _ => false
    killConfirm := fun _ => true }

/-- Raw records of `osOtherMachine`: a different binding (port 3000, PID
9999) reporting the same "node" name and command as PID 1001 of `osShared`. -/
def recsOther : List RawSocketRecord :=
  [{ port := 3000, pid := 9999, address := "::1",
     name := some "node", cmdline := some "node server.js" }]

/-- Concrete OS environment: a second, different machine state whose socket
table nevertheless reports the same "node" process name and command as
`osShared` does for PID 1001. -/
def osOtherMachine : OSEnv :=
  { socketTable := some recsOther
    nameOf := fun _ => none
    cmdOf := fun _ => none
    alive := fun _ => true
    canSignal := fun _ => true
    exitsOnTerm := fun _ => true
    killConfirm := fun _ => false }


theorem sameKey_iff {s r : RawSocketRecord} : sameKey s r = true ↔ rkey s = rkey r := by
  simp [sameKey, rkey, Prod.ext_iff]

theorem mem_of_mem_dedupByKey :
    ∀ {l : List RawSocketRecord} {s : RawSocketRecord}, s ∈ dedupByKey l → s ∈ l := by
  intro l
  induction l with
  | nil => intro s h; simp [dedupByKey] at h
  | cons r rest ih =>
    intro s h
    by_cases hc : (rest.any fun t => sameKey t r) = true
    · rw [dedupByKey, if_pos hc] at h
      exact List.mem_cons_of_mem _ (ih h)
    · rw [dedupByKey, if_neg hc] at h
      rcases List.mem_cons.mp h with h1 | h2
      · exact h1 ▸ List.mem_cons_self _ _
      · exact List.mem_cons_of_mem _ (ih h2)

theorem nodup_keys_dedupByKey (l : List RawSocketRecord) :
    ((dedupByKey l).map rkey).Nodup := by
  induction l with
  | nil => simp [dedupByKey]
  | cons r rest ih =>
    by_cases hc : (rest.any fun t => sameKey t r) = true
    · rw [dedupByKey, if_pos hc]; exact ih
    · rw [dedupByKey, if_neg hc]
      refine List.nodup_cons.mpr ⟨?_, ih⟩
      intro hmem
      rcases List.mem_map.mp hmem with ⟨s, hs, hkey⟩
      exact hc (List.any_eq_true.mpr
        ⟨s, mem_of_mem_dedupByKey hs, sameKey_iff.mpr hkey⟩)

theorem exists_rep_dedupByKey :
    ∀ {l : List RawSocketRecord} {r : RawSocketRecord}, r ∈ l →
      ∃ s ∈ dedupByKey l, rkey s = rkey r := by
  intro l
  induction l with
  | nil => intro r h; exact absurd h (List.not_mem_nil r)
  | cons a rest ih =>
    intro r h
    by_cases hc : (rest.any fun t => sameKey t a) = true
    · rw [dedupByKey, if_pos hc]
      rcases List.mem_cons.mp h with h1 | h2
      · rcases List.any_eq_true.mp hc with ⟨t, ht, hta⟩
        rcases ih ht with ⟨s, hs, hst⟩
        exact ⟨s, hs, hst.trans ((sameKey_iff.mp hta).trans (by rw [h1]))⟩
      · exact ih h2
    · rw [dedupByKey, if_neg hc]
      rcases List.mem_cons.mp h with h1 | h2
      · exact ⟨a, List.mem_cons_self _ _, by rw [h1]⟩
      · rcases ih h2 with ⟨s, hs, hst⟩
        exact ⟨s, List.mem_cons_of_mem _ hs, hst⟩

theorem mem_build_catalog_iff {os : OSEnv} {recs : List RawSocketRecord}
    {i : PortInfo} :
    i ∈ build_catalog os recs ↔ i ∈ (dedupByKey recs).map (buildEntry os) :=
  List.mem_insertionSort catalogLE

theorem process_type_eq_classify {os : OSEnv} {recs : List RawSocketRecord}
    {i : PortInfo} (h : i ∈ build_catalog os recs) :
    i.process_type = classify i.process_name i.command := by
  rcases List.mem_map.mp (mem_build_catalog_iff.mp h) with ⟨r, _, rfl⟩
  rfl

theorem nodup_keys_build_catalog (os : OSEnv) (recs : List RawSocketRecord) :
    ((build_catalog os recs).map pkey).Nodup := by
  have hperm : List.Perm ((build_catalog os recs).map pkey)
      (((dedupByKey recs).map (buildEntry os)).map pkey) :=
    (List.perm_insertionSort catalogLE _).map pkey
  have heq : ((dedupByKey recs).map (buildEntry os)).map pkey =
      (dedupByKey recs).map rkey := by
    rw [List.map_map]; rfl
  exact hperm.symm.nodup (heq ▸ nodup_keys_dedupByKey recs)

theorem buildEntry_mem_catalog {os : OSEnv} {recs : List RawSocketRecord}
    {s : RawSocketRecord} (hs : s ∈ dedupByKey recs) :
    buildEntry os s ∈ build_catalog os recs :=
  mem_build_catalog_iff.mpr (List.mem_map_of_mem _ hs)

theorem exists_entry_build_catalog {os : OSEnv} {recs : List RawSocketRecord}
    {r : RawSocketRecord} (h : r ∈ recs) :
    ∃ i ∈ build_catalog os recs, i.port = r.port ∧ i.pid = r.pid := by
  rcases exists_rep_dedupByKey h with ⟨s, hs, hkey⟩
  have hkey' := Prod.ext_iff.mp hkey
  exact ⟨buildEntry os s, buildEntry_mem_catalog hs, hkey'.1, hkey'.2⟩

/-- Claim C6: every scan snapshot keeps each `PortInfo.port` within 0–65535, makes
the `(port, pid)` pairs unique within the snapshot, and retains an entry for
every raw `(port, pid)` binding, so a port bound by several PIDs is never
collapsed to one entry. -/
theorem scan_snapshot_invariants (os : OSEnv) (recs : List RawSocketRecord)
    (infos : List PortInfo) (hTable : os.socketTable = some recs)
    (hScan : scan os = .ok infos) :
    (∀ i ∈ infos, i.port.val ≤ 65535) ∧
    (infos.map pkey).Nodup ∧
    (∀ r ∈ recs, ∃ i ∈ infos, i.port = r.port ∧ i.pid = r.pid) := by
  have hinfos : infos = build_catalog os recs := by
    rw [scan, hTable] at hScan
    exact (Except.ok.inj hScan).symm
  subst hinfos
  refine ⟨?_, nodup_keys_build_catalog os recs, ?_⟩
  · intro i _
    have := i.port.isLt
    omega
  · intro r hr
    exact exists_entry_build_catalog hr

/-- Snapshot of `osShared`, as produced by the catalog builder. -/
def infosShared : List PortInfo := build_catalog osShared recsShared

theorem scan_snapshot_invariants_witness :
    (∀ i ∈ infosShared, i.port.val ≤ 65535) ∧
    (infosShared.map pkey).Nodup ∧
    (∀ r ∈ recsShared, ∃ i ∈ infosShared, i.port = r.port ∧ i.pid = r.pid) :=
  scan_snapshot_invariants osShared recsShared infosShared rfl rfl

/-- Claim C7: classification is a pure, deterministic function of
`(process_name, command)` — any two catalog entries, from any two builds on
any two environments, that agree on the name and the command carry the same
`process_type`. -/
theorem classification_deterministic (os₁ os₂ : OSEnv)
    (recs₁ recs₂ : List RawSocketRecord) (i₁ i₂ : PortInfo)
    (h₁ : i₁ ∈ build_catalog os₁ recs₁) (h₂ : i₂ ∈ build_catalog os₂ recs₂)
    (hn : i₁.process_name = i₂.process_name) (hc : i₁.command = i₂.command) :
    i₁.process_type = i₂.process_type := by
  rw [process_type_eq_classify h₁, process_type_eq_classify h₂, hn, hc]

/-- Catalog entry for PID 1001 of `osShared`. -/
def entryNodeShared : PortInfo := buildEntry osShared (recsShared.get ⟨0, by decide⟩)

/-- Catalog entry of `osOtherMachine`, with the same name/command pair. -/
def entryNodeOther : PortInfo :=
  buildEntry osOtherMachine (recsOther.get ⟨0, by decide⟩)

theorem classification_deterministic_witness :
    entryNodeShared.process_type = entryNodeOther.process_type :=
  classification_deterministic osShared osOtherMachine recsShared recsOther
    entryNodeShared entryNodeOther (by decide) (by decide) (by decide) (by decide)

/-- Claim C8: a scan fails exactly when the OS socket table cannot be read at all;
otherwise it succeeds with a snapshot that keeps an entry for every raw
record, and a record whose name or command cannot be resolved degrades that
entry to empty strings rather than being dropped or aborting the scan. -/
theorem scan_failure_total_only (os : OSEnv) :
    ((∃ e, scan os = .error e) ↔ os.socketTable = none) ∧
    (∀ recs, os.socketTable = some recs →
      ∃ infos, scan os = .ok infos ∧
        (∀ r ∈ recs, ∃ i ∈ infos, i.port = r.port ∧ i.pid = r.pid) ∧
        (∀ s ∈ dedupByKey recs,
          ∃ i ∈ infos, i.port = s.port ∧ i.pid = s.pid ∧
            (s.name = none → os.nameOf s.pid = none → i.process_name = "") ∧
            (s.cmdline = none → os.cmdOf s.pid = none → i.command = ""))) := by
  constructor
  · constructor
    · rintro ⟨e, he⟩
      cases h : os.socketTable with
      | none => rfl
      | some records => rw [scan, h] at he; exact Except.noConfusion he
    · intro h
      exact ⟨.unavailable, by rw [scan, h]⟩
  · intro recs hrecs
    refine ⟨build_catalog os recs, by rw [scan, hrecs], ?_, ?_⟩
    · intro r hr
      exact exists_entry_build_catalog hr
    · intro s hs
      refine ⟨buildEntry os s, buildEntry_mem_catalog hs, rfl, rfl, ?_, ?_⟩
      · intro h1 h2
        simp [buildEntry, h1, h2, Option.orElse]
      · intro h1 h2
        simp [buildEntry, h1, h2, Option.orElse]

theorem scan_failure_total_only_witness :
    ∃ infos, scan osUnresolved = .ok infos ∧
      (∀ r ∈ recsUnresolved, ∃ i ∈ infos, i.port = r.port ∧ i.pid = r.pid) ∧
      (∀ s ∈ dedupByKey recsUnresolved,
        ∃ i ∈ infos, i.port = s.port ∧ i.pid = s.pid ∧
          (s.name = none → osUnresolved.nameOf s.pid = none →
            i.process_name = "") ∧
          (s.cmdline = none → osUnresolved.cmdOf s.pid = none →
            i.command = "")) :=
  (scan_failure_total_only osUnresolved).2 recsUnresolved rfl

/-- Claim C10: every `CPortInfo` handed out by `portkiller_scan_ports` stores one
of the five `ProcessType` enum codes 0–4 in its `process_type` byte. -/
theorem scan_ports_process_type_in_range (os : OSEnv) (c : CPortInfo)
    (h : c ∈ (portkiller_scan_ports os).2) : c.process_type < 5 := by
  rw [portkiller_scan_ports] at h
  cases hscan : scan os with
  | error e => rw [hscan] at h; simp at h
  | ok infos =>
    rw [hscan] at h
    simp only [List.mem_map] at h
    rcases h with ⟨i, _, rfl⟩
    show i.process_type.toCode < 5
    cases i.process_type <;> decide

/-- First marshalled entry of the `osShared` snapshot. -/
def centryShared : CPortInfo := toCPortInfo (buildEntry osShared (recsShared.get ⟨0, by decide⟩))

theorem scan_ports_process_type_in_range_witness :
    centryShared.process_type < 5 :=
  scan_ports_process_type_in_range osShared centryShared (by decide)

/-- Claim C2: for a live, signallable PID, graceful termination runs
Request → Wait → Verify: it sends the cooperative signal, waits the fixed
500 ms single-PID grace interval, then re-checks liveness; when the process
ignores the signal the full trace ends with the force signal strictly after
the 500 ms wait and the verify (so completion is never reported before the
grace interval has elapsed), and when the process exits on its own within the
interval the outcome is `Killed` and the force signal is never sent. -/
theorem graceful_state_machine (os : OSEnv) (pid : Nat)
    (halive : os.alive pid = true) (hsig : os.canSignal pid = true) :
    ((terminateGraceful os pid).2.2.take 3 =
        [Event.signal .term pid, Event.wait 500, Event.verify pid]) ∧
    (os.exitsOnTerm pid = true →
      (terminateGraceful os pid).1 = .killed ∧
      Event.signal .kill pid ∉ (terminateGraceful os pid).2.2) ∧
    (os.exitsOnTerm pid = false →
      (terminateGraceful os pid).2.2 =
        [Event.signal .term pid, Event.wait 500, Event.verify pid,
         Event.signal .kill pid]) := by
  refine ⟨?_, ?_, ?_⟩
  · cases hexit : os.exitsOnTerm pid <;>
      cases hkill : os.killConfirm pid <;>
      simp [terminateGraceful, halive, hsig, hexit, hkill]
  · intro hexit
    simp [terminateGraceful, halive, hsig, hexit]
  · intro hexit
    cases hkill : os.killConfirm pid <;>
      simp [terminateGraceful, halive, hsig, hexit, hkill]

theorem graceful_state_machine_witness :
    (((terminateGraceful osIgnores 7).2.2.take 3 =
        [Event.signal .term 7, Event.wait 500, Event.verify 7]) ∧
     (osIgnores.exitsOnTerm 7 = true →
       (terminateGraceful osIgnores 7).1 = .killed ∧
       Event.signal .kill 7 ∉ (terminateGraceful osIgnores 7).2.2) ∧
     (osIgnores.exitsOnTerm 7 = false →
       (terminateGraceful osIgnores 7).2.2 =
         [Event.signal .term 7, Event.wait 500, Event.verify 7,
          Event.signal .kill 7])) ∧
    (((terminateGraceful osCooperates 7).2.2.take 3 =
        [Event.signal .term 7, Event.wait 500, Event.verify 7]) ∧
     (osCooperates.exitsOnTerm 7 = true →
       (terminateGraceful osCooperates 7).1 = .killed ∧
       Event.signal .kill 7 ∉ (terminateGraceful osCooperates 7).2.2) ∧
     (osCooperates.exitsOnTerm 7 = false →
       (terminateGraceful osCooperates 7).2.2 =
         [Event.signal .term 7, Event.wait 500, Event.verify 7,
          Event.signal .kill 7])) :=
  ⟨graceful_state_machine osIgnores 7 rfl rfl,
   graceful_state_machine osCooperates 7 rfl rfl⟩

/-- Claim C5: terminating a PID that does not refer to a live process is not an
error — both the graceful and the force path are total functions that resolve
to the benign `NotFound` outcome, and a repeated call on the resulting state
returns the same benign outcome again. -/
theorem terminate_dead_pid_benign (os : OSEnv) (pid : Nat)
    (hdead : os.alive pid = false) :
    (terminateGraceful os pid).1 = .notFound ∧
    (terminateForce os pid).1 = .notFound ∧
    (terminateGraceful (terminateGraceful os pid).2.1 pid).1 = .notFound ∧
    (terminateForce (terminateForce os pid).2.1 pid).1 = .notFound ∧
    Outcome.isBenign .notFound = true := by
  simp [terminateGraceful, terminateForce, hdead, Outcome.isBenign]

theorem waitTime_append (l₁ l₂ : List Event) :
    waitTime (l₁ ++ l₂) = waitTime l₁ + waitTime l₂ := by
  induction l₁ with
  | nil => simp [waitTime]
  | cons e rest ih =>
    cases e <;> simp [waitTime, ih]
    omega

theorem waitTime_map_signal (s : Signal) (l : List Nat) :
    waitTime (l.map (Event.signal s)) = 0 := by
  induction l with
  | nil => rfl
  | cons p rest ih => simpa [waitTime] using ih

theorem filter_isWait_map_signal (s : Signal) (l : List Nat) :
    (l.map (Event.signal s)).filter Event.isWait = [] := by
  induction l with
  | nil => rfl
  | cons p rest ih => simp [Event.isWait, ih]

theorem activePidsOnPort_of_scan_error {os : OSEnv} {port : Fin 65536}
    {e : ProbeError} (hscan : scan os = .error e) :
    activePidsOnPort os port = [] := by
  rw [activePidsOnPort, hscan]

theorem killAllOnPort_trace {os : OSEnv} {port : Fin 65536}
    {infos : List PortInfo} (hscan : scan os = .ok infos)
    (hne : activePidsOnPort os port ≠ []) :
    (killAllOnPort os port).2.2 =
      (activePidsOnPort os port).map (Event.signal .term) ++
        Event.wait 300 ::
          ((activePidsOnPort os port).filter fun p =>
            os.alive p && os.canSignal p && !os.exitsOnTerm p).map
            (Event.signal .kill) := by
  unfold killAllOnPort
  rw [hscan]
  simp [hne]

theorem atLeastOneKilled_killAllOnPort (os : OSEnv) (port : Fin 65536) :
    (killAllOnPort os port).1.atLeastOneKilled = true ↔
    ∃ p ∈ activePidsOnPort os port, batchOutcome os p = .killed := by
  unfold killAllOnPort
  cases hscan : scan os with
  | error e =>
    rw [activePidsOnPort_of_scan_error hscan]
    simp [KillPortResult.atLeastOneKilled]
  | ok infos =>
    by_cases hp : activePidsOnPort os port = []
    · rw [hp]
      simp [KillPortResult.atLeastOneKilled]
    · simp only [hp, if_false]
      simp [KillPortResult.atLeastOneKilled, List.any_map, Function.comp,
        List.any_eq_true]

/-- Claim C1: the whole-port kill reports overall success (`1`) exactly when at
least one PID on the port was confirmed terminated; a per-PID
`PermissionDenied` never makes the call fail when another PID was killed. -/
theorem kill_all_success_iff_one_killed (os : OSEnv) (port : Fin 65536) :
    (portkiller_kill_processes_on_port os port = 1 ↔
      ∃ p ∈ activePidsOnPort os port, batchOutcome os p = .killed) ∧
    (∀ p ∈ activePidsOnPort os port, ∀ q ∈ activePidsOnPort os port,
      batchOutcome os p = .permissionDenied → batchOutcome os q = .killed →
      portkiller_kill_processes_on_port os port = 1) := by
  have key : portkiller_kill_processes_on_port os port = 1 ↔
      ∃ p ∈ activePidsOnPort os port, batchOutcome os p = .killed := by
    rw [portkiller_kill_processes_on_port]
    cases h : (killAllOnPort os port).1.atLeastOneKilled with
    | false =>
      rw [← atLeastOneKilled_killAllOnPort os port, h]
      simp
    | true =>
      rw [← atLeastOneKilled_killAllOnPort os port, h]
      simp
  exact ⟨key, fun p _ q hq _ hk => key.mpr ⟨q, hq, hk⟩⟩

theorem kill_all_success_iff_one_killed_witness :
    activePidsOnPort osShared 8080 = [1001, 1002] ∧
    batchOutcome osShared 1001 = .permissionDenied ∧
    batchOutcome osShared 1002 = .killed ∧
    portkiller_kill_processes_on_port osShared 8080 = 1 :=
  ⟨by decide, by decide, by decide,
   (kill_all_success_iff_one_killed osShared 8080).2 1001 (by decide) 1002
     (by decide) (by decide) (by decide)⟩

/-- Claim C3: on a port with at least two active PIDs, the batched kill signals
SIGTERM to every PID before any wait begins, performs exactly one batched
300 ms wait for the whole batch, and only then force-signals the PIDs still
alive; the total wait time of the call is 300 ms regardless of the number of
PIDs. -/
theorem kill_all_batched_wait (os : OSEnv) (port : Fin 65536)
    (hN : 2 ≤ (activePidsOnPort os port).length) :
    (killAllOnPort os port).2.2 =
      (activePidsOnPort os port).map (Event.signal .term) ++
        Event.wait 300 ::
          ((activePidsOnPort os port).filter fun p =>
            os.alive p && os.canSignal p && !os.exitsOnTerm p).map
            (Event.signal .kill) ∧
    waitTime (killAllOnPort os port).2.2 = 300 ∧
    (killAllOnPort os port).2.2.filter Event.isWait = [Event.wait 300] := by
  cases hscan : scan os with
  | error e =>
    rw [activePidsOnPort_of_scan_error hscan] at hN
    simp at hN
  | ok infos =>
    have hne : activePidsOnPort os port ≠ [] := by
      intro h
      rw [h] at hN
      simp at hN
    have htr := killAllOnPort_trace hscan hne
    refine ⟨htr, ?_, ?_⟩
    · rw [htr, waitTime_append, waitTime_map_signal, waitTime,
        waitTime_map_signal]
    · rw [htr, List.filter_append, filter_isWait_map_signal]
      simp [Event.isWait, filter_isWait_map_signal]

theorem kill_all_batched_wait_witness :
    (killAllOnPort osBatch 9090).2.2 =
      (activePidsOnPort osBatch 9090).map (Event.signal .term) ++
        Event.wait 300 ::
          ((activePidsOnPort osBatch 9090).filter fun p =>
            osBatch.alive p && osBatch.canSignal p && !osBatch.exitsOnTerm p).map
            (Event.signal .kill) ∧
    waitTime (killAllOnPort osBatch 9090).2.2 = 300 ∧
    (killAllOnPort osBatch 9090).2.2.filter Event.isWait = [Event.wait 300] :=
  kill_all_batched_wait osBatch 9090 (by decide)

/-- Claim C4: freeing a port on which the scan finds zero active listeners takes no
action — no signal is sent, the environment is unchanged — and yields the
`noAction` outcome, which is success-shaped and distinguishable from the
failure outcome. -/
theorem kill_port_no_listeners_noop (os : OSEnv) (port : Fin 65536)
    (recs : List RawSocketRecord) (hTable : os.socketTable = some recs)
    (hnone : activePidsOnPort os port = []) :
    killAllOnPort os port = (.noAction, os, []) ∧
    KillPortResult.noAction.isFailure = false ∧
    KillPortResult.probeFailure.isFailure = true := by
  have hscan : scan os = .ok (build_catalog os recs) := by rw [scan, hTable]
  refine ⟨?_, rfl, rfl⟩
  unfold killAllOnPort
  rw [hscan]
  simp [hnone]

theorem kill_port_no_listeners_noop_witness :
    killAllOnPort osIdle 8080 = (.noAction, osIdle, []) ∧
    KillPortResult.noAction.isFailure = false ∧
    KillPortResult.probeFailure.isFailure = true :=
  kill_port_no_listeners_noop osIdle 8080 [] rfl rfl

/-- Claim C9: freeing a `NULL` handle is a safe no-op — `portkiller_free` is a
total function that returns the bookkeeping state unchanged — and freeing a
handle returned by `portkiller_new` removes that instance from the live set. -/
theorem free_null_noop_and_releases (h : HandleHeap) (b : Bool)
    (id : Nat) (h' : HandleHeap) (hnew : portkiller_new b h = (some id, h')) :
    portkiller_free none h = h ∧
    id ∈ h'.live ∧
    id ∉ (portkiller_free (some id) h').live := by
  refine ⟨rfl, ?_, ?_⟩
  · cases b with
    | false => simp [portkiller_new] at hnew
    | true =>
      simp [portkiller_new, Prod.ext_iff] at hnew
      obtain ⟨hid, hh⟩ := hnew
      subst hh
      subst hid
      exact List.mem_cons_self _ _
  · simp [portkiller_free, List.mem_filter]

theorem free_null_noop_and_releases_witness :
    portkiller_free none ⟨[], 0⟩ = (⟨[], 0⟩ : HandleHeap) ∧
    0 ∈ (⟨[0], 1⟩ : HandleHeap).live ∧
    0 ∉ (portkiller_free (some 0) ⟨[0], 1⟩).live :=
  free_null_noop_and_releases ⟨[], 0⟩ true 0 ⟨[0], 1⟩ rfl

theorem terminate_dead_pid_benign_witness :
    (terminateGraceful osIdle 55).1 = .notFound ∧
    (terminateForce osIdle 55).1 = .notFound ∧
    (terminateGraceful (terminateGraceful osIdle 55).2.1 55).1 = .notFound ∧
    (terminateForce (terminateForce osIdle 55).2.1 55).1 = .notFound ∧
    Outcome.isBenign .notFound = true :=
  terminate_dead_pid_benign osIdle 55 rfl

end PortKiller
